import Mathlib

set_option autoImplicit false

/-
Verification development for the vibe repository (phased LLM code-generation
pipeline on Cloudflare Workers).  Each definition below is a shallow embedding
of a function or data shape of the repository; the theorems at the end of the
file settle the behavioural claims about them.  Definitions whose source is not
among the provided files are explicitly marked as modelled from the spec.
-/

/- ===================== Retry machinery (src/unnamed/part_001, withRetry) ==================== -/

/-- Options record of `withRetry` (src/unnamed/part_001 lines 149-154):
`maxAttempts`, `backoffMs`, optional `maxBackoffMs` (defaulted to 30000 at the
destructuring site) and optional `shouldRetry` predicate. -/
structure RetryOptions (E : Type) where
  maxAttempts : Nat
  backoffMs : Nat
  maxBackoffMs : Option Nat
  shouldRetry : Option (E → Bool)

/-- Observable outcome of a `withRetry` run: the returned or thrown value
(`Except.error none` models throwing the initial `undefined` `lastError` when
the loop body never runs), the number of invocations of `fn`, and the list of
backoff delays awaited between consecutive attempts, in order. -/
structure RetryOutcome (E A : Type) where
  result : Except (Option E) A
  calls : Nat
  delays : List Nat

/-- Guard `shouldRetry && !shouldRetry(error)` of the catch block
(src/unnamed/part_001 lines 169-171): true exactly when a predicate was
supplied and rejects the error. -/
def rejectsRetry {E : Type} (shouldRetry : Option (E → Bool)) (e : E) : Bool :=
  match shouldRetry with
  | some p => ! p e
  | none => false

/-- Loop body of `withRetry` (src/unnamed/part_001 lines 163-180).  The
operation `fn` is modelled as `behavior : Nat → Except E A` giving the outcome
of the attempt with that (1-based) number.  First argument is the number of
remaining loop iterations (`maxAttempts - attempt + 1`), second the current
attempt number.  On a caught error: if `shouldRetry` is provided and rejects
the error it is rethrown at once; if this was the final attempt the loop exits
and `lastError` (that same error) is thrown; otherwise the computed delay
`min(backoffMs * 2 ^ (attempt-1), maxBackoffMs)` is awaited and the loop
continues. -/
def withRetryAux {E A : Type} (behavior : Nat → Except E A) (backoffMs maxBackoffMs : Nat)
    (shouldRetry : Option (E → Bool)) : Nat → Nat → RetryOutcome E A
  | 0, _ => ⟨Except.error none, 0, []⟩
  | remaining + 1, attempt =>
    match behavior attempt with
    | Except.ok a => ⟨Except.ok a, 1, []⟩
    | Except.error e =>
      if rejectsRetry shouldRetry e then
        ⟨Except.error (some e), 1, []⟩
      else if remaining = 0 then
        ⟨Except.error (some e), 1, []⟩
      else
        let rest := withRetryAux behavior backoffMs maxBackoffMs shouldRetry remaining (attempt + 1)
        ⟨rest.result, rest.calls + 1, min (backoffMs * 2 ^ (attempt - 1)) maxBackoffMs :: rest.delays⟩

/-- Embedding of `withRetry` (src/unnamed/part_001 lines 156-181).  The
destructuring `maxBackoffMs = 30000` default is applied here. -/
def withRetry {E A : Type} (behavior : Nat → Except E A) (opts : RetryOptions E) :
    RetryOutcome E A :=
  withRetryAux behavior opts.backoffMs (opts.maxBackoffMs.getD 30000) opts.shouldRetry
    opts.maxAttempts 1

/-- Retry options passed at the phase-generation call site
(src/unnamed/part_001 lines 109-112): `{ maxAttempts: 3, backoffMs: 1000 }`,
with `maxBackoffMs` and `shouldRetry` left undefined. -/
def generatePhaseRetryOptions (E : Type) : RetryOptions E :=
  ⟨3, 1000, none, none⟩

/- ===================== Generation state machine (src/.github/agents/c2c-engineer.agent.md and c2c-implementer.agent.md, GenerationAgent) ==================== -/

/-- Status values of `GenerationState` in the Durable Object state pattern. -/
inductive GenStatus where
  | idle
  | bootstrapping
  | generating
  | completed
  | failed
deriving DecidableEq, Repr

/-- Embedding of the `GenerationState` record (c2c-implementer.agent.md lines
135-143).  Timestamps are `Nat` milliseconds. -/
structure GenerationState where
  sessionId : String
  status : GenStatus
  currentPhase : Nat
  totalPhases : Nat
  error : Option String
  createdAt : Nat
  updatedAt : Nat
deriving DecidableEq, Repr

/-- Embedding of `GenerationAgent.advancePhase` (c2c-implementer.agent.md lines
195-203, identical in c2c-engineer.agent.md lines 251-258): the loaded state is
merged through `updateState` with `currentPhase` incremented and `status` set
to `completed` when the new phase index reaches `totalPhases`, else
`generating`; `updateState` also bumps `updatedAt` to the current time `now`.
There is no guard on a terminal current status. -/
def advancePhase (s : GenerationState) (now : Nat) : GenerationState :=
  let newPhase := s.currentPhase + 1
  { s with
      status := if s.totalPhases ≤ newPhase then GenStatus.completed else GenStatus.generating
      currentPhase := newPhase
      updatedAt := now }

/-- Embedding of `GenerationAgent.failGeneration` (c2c-implementer.agent.md
lines 205-210). -/
def failGeneration (s : GenerationState) (msg : String) (now : Nat) : GenerationState :=
  { s with status := GenStatus.failed, error := some msg, updatedAt := now }

/- ===================== Model configuration (src/unnamed/part_004 and src/worker/agents/inferutils/config.ts) ==================== -/

/-- String values of the `AIModels` enum (src/unnamed/part_004 lines 9-23). -/
def AIModels.DISABLED : String := "disabled"

def AIModels.GEMINI_3_PRO : String := "google-ai-studio/gemini-3-pro"

def AIModels.GEMINI_2_5_PRO : String := "google-ai-studio/gemini-2.5-pro"

def AIModels.CLAUDE_SONNET_4_5 : String := "anthropic/claude-sonnet-4-5-20250929"

def AIModels.CLAUDE_HAIKU_4_5 : String := "anthropic/claude-haiku-4-5-20251001"

def AIModels.GROK_4_1_FAST_REASONING : String := "grok/grok-4-1-fast-reasoning"

def AIModels.GROK_CODE_FAST_1 : String := "grok/grok-code-fast-1"

/-- Embedding of `ModelConfig` (src/unnamed/part_004 lines 25-31).  Model
identifiers are their enum string values; `temperature` is kept as an exact
rational. -/
structure ModelConfig where
  name : String
  reasoning_effort : Option String
  max_tokens : Option Nat
  temperature : Option ℚ
  fallbackModel : Option String

/-- Embedding of `AgentConfig` (src/unnamed/part_004 lines 33-47). -/
structure AgentConfig where
  templateSelection : ModelConfig
  blueprint : ModelConfig
  projectSetup : ModelConfig
  phaseGeneration : ModelConfig
  phaseImplementation : ModelConfig
  firstPhaseImplementation : ModelConfig
  codeReview : ModelConfig
  fileRegeneration : ModelConfig
  screenshotAnalysis : ModelConfig
  realtimeCodeFixer : ModelConfig
  fastCodeFixer : ModelConfig
  conversationalResponse : ModelConfig
  deepDebugger : ModelConfig

/-- Embedding of `AGENT_CONFIG` (src/worker/agents/inferutils/config.ts lines
3-94). -/
def AGENT_CONFIG : AgentConfig where
  templateSelection :=
    { name := AIModels.CLAUDE_HAIKU_4_5
      reasoning_effort := none
      max_tokens := some 2000
      temperature := some 0.6
      fallbackModel := some AIModels.GROK_CODE_FAST_1 }
  blueprint :=
    { name := AIModels.CLAUDE_SONNET_4_5
      reasoning_effort := some "medium"
      max_tokens := some 64000
      temperature := some 0.7
      fallbackModel := some AIModels.GROK_4_1_FAST_REASONING }
  projectSetup :=
    { name := AIModels.CLAUDE_SONNET_4_5
      reasoning_effort := some "low"
      max_tokens := some 10000
      temperature := some 0.2
      fallbackModel := some AIModels.GROK_4_1_FAST_REASONING }
  phaseGeneration :=
    { name := AIModels.CLAUDE_SONNET_4_5
      reasoning_effort := some "low"
      max_tokens := some 32000
      temperature := some 0.2
      fallbackModel := some AIModels.GROK_4_1_FAST_REASONING }
  phaseImplementation :=
    { name := AIModels.CLAUDE_SONNET_4_5
      reasoning_effort := some "low"
      max_tokens := some 64000
      temperature := some 0.2
      fallbackModel := some AIModels.GROK_4_1_FAST_REASONING }
  firstPhaseImplementation :=
    { name := AIModels.CLAUDE_SONNET_4_5
      reasoning_effort := some "low"
      max_tokens := some 64000
      temperature := some 0.2
      fallbackModel := some AIModels.GROK_4_1_FAST_REASONING }
  codeReview :=
    { name := AIModels.CLAUDE_SONNET_4_5
      reasoning_effort := some "medium"
      max_tokens := some 32000
      temperature := some 0.1
      fallbackModel := some AIModels.GROK_4_1_FAST_REASONING }
  fileRegeneration :=
    { name := AIModels.GROK_CODE_FAST_1
      reasoning_effort := some "low"
      max_tokens := some 32000
      temperature := some 0
      fallbackModel := some AIModels.CLAUDE_SONNET_4_5 }
  screenshotAnalysis :=
    { name := AIModels.CLAUDE_SONNET_4_5
      reasoning_effort := some "medium"
      max_tokens := some 8000
      temperature := some 0.1
      fallbackModel := some AIModels.GROK_4_1_FAST_REASONING }
  realtimeCodeFixer :=
    { name := AIModels.DISABLED
      reasoning_effort := some "low"
      max_tokens := some 32000
      temperature := some 1
      fallbackModel := some AIModels.CLAUDE_HAIKU_4_5 }
  fastCodeFixer :=
    { name := AIModels.DISABLED
      reasoning_effort := none
      max_tokens := some 64000
      temperature := some 0
      fallbackModel := some AIModels.CLAUDE_SONNET_4_5 }
  conversationalResponse :=
    { name := AIModels.CLAUDE_HAIKU_4_5
      reasoning_effort := some "low"
      max_tokens := some 4000
      temperature := some 0
      fallbackModel := some AIModels.GROK_CODE_FAST_1 }
  deepDebugger :=
    { name := AIModels.CLAUDE_SONNET_4_5
      reasoning_effort := some "high"
      max_tokens := some 8000
      temperature := some 0.5
      fallbackModel := some AIModels.GROK_4_1_FAST_REASONING }

/-- Modelled from the spec: the post-phase corrector implementation
(worker/agents/operations/PostPhaseCodeFixer.ts and the realtime fixer) is not
among the provided source files; spec section 4.4 states the component "is
disableable via configuration (a `DISABLED` model sentinel) - when disabled, it
is a no-op that passes files through unchanged".  The enabled path is kept
abstract as `fix`. -/
def runCorrector (cfg : ModelConfig) (fix : List (String × String) → List (String × String))
    (files : List (String × String)) : List (String × String) :=
  if cfg.name = AIModels.DISABLED then files else fix files

/- ===================== String helpers shared by the credential / MIME embeddings ==================== -/

/-- Embedding of the JavaScript `String.prototype.split` with a one-character
separator, on character lists: `split` of the empty string is `[""]`, a leading
separator yields a leading empty segment, and so on. -/
def jsSplitOn (sep : Char) : List Char → List (List Char)
  | [] => [[]]
  | c :: cs =>
    let rest := jsSplitOn sep cs
    if c = sep then [] :: rest
    else
      match rest with
      | [] => [[c]]
      | r :: rs => (c :: r) :: rs

/-- Characters strictly after the last occurrence of `sep`, or `none` when
`sep` does not occur.  This is the common core of the two extension-extraction
styles in the source (`substring(lastIndexOf(sep))` and `split(sep).pop()`);
the lemmas `jsSplitOn_headD` and `jsSplitOn_getLastD` below relate it to
`jsSplitOn`. -/
def afterLastSep (sep : Char) : List Char → Option (List Char)
  | [] => none
  | c :: cs =>
    match afterLastSep sep cs with
    | some suf => some suf
    | none => if c = sep then some cs else none

/-- Embedding of `String.prototype.toLowerCase` on the ASCII inputs in play. -/
def jsToLower (l : List Char) : List Char := l.map Char.toLower

/- ===================== Provider and credential resolution (src/unnamed/part_000, getApiKey / getConfigurationForModel) ==================== -/

/-- Embedding of the provider extraction `model.split('/')[0]`
(src/unnamed/part_000 line 211). -/
def providerOfModel (model : String) : String :=
  String.mk ((jsSplitOn '/' model.data).headD [])

/-- Embedding of the environment-key construction of `getApiKey`
(src/unnamed/part_000 lines 193-195):
`provider.toUpperCase().replaceAll('-', '_') + "_API_KEY"`. -/
def envKeyOfProvider (provider : String) : String :=
  String.mk ((provider.data.map Char.toUpper).map fun c => if c = '-' then '_' else c)
    ++ "_API_KEY"

/-- Credential validity check described with the source (src/unnamed/part_000
line 304): the key must exist, have length at least 10, and not be the
placeholder "none" or "default". -/
def isValidApiKey : Option String → Bool
  | none => false
  | some s => decide (10 ≤ s.length) && ! (s == "none") && ! (s == "default")

/-- Embedding of `getApiKey` (src/unnamed/part_000 lines 191-204).  The
process environment is a lookup from variable name to optional value.  When
the direct provider key fails validation, the code falls back to
`env.CLOUDFLARE_AI_GATEWAY_TOKEN`. -/
def getApiKey (provider : String) (env : String → Option String) : Option String :=
  let envKey := envKeyOfProvider provider
  let apiKey := env envKey
  if isValidApiKey apiKey then apiKey else env "CLOUDFLARE_AI_GATEWAY_TOKEN"

/-- Concrete environment used to exercise `getApiKey`: the Anthropic key is the
placeholder "none" and a gateway token is configured. -/
def c4Env : String → Option String := fun k =>
  if k = "ANTHROPIC_API_KEY" then some "none"
  else if k = "CLOUDFLARE_AI_GATEWAY_TOKEN" then some "gateway-token-123456"
  else none

/- ===================== Template selection (src/worker/agents/index.ts, getTemplateForQuery) ==================== -/

/-- Catalog template entry (only the name is inspected by the embedded code). -/
structure Template where
  name : String
deriving DecidableEq

/-- Shape of `listTemplates()` responses: `{success, templates[], error?}`. -/
structure TemplatesResponse where
  success : Bool
  templates : List Template
  error : Option String

/-- Result of the template-selection inference call. -/
structure TemplateSelection where
  selectedTemplateName : Option String

/-- Shape of `getTemplateDetails(name)` responses. -/
structure TemplateDetailsResponse where
  success : Bool
  templateDetails : Option String
  error : Option String

/-- Boolean test for the error side of an `Except`. -/
def isErr {A : Type} : Except String A → Bool
  | Except.error _ => true
  | Except.ok _ => false

/-- Embedding of `getTemplateForQuery` (src/worker/agents/index.ts lines
55-142).  `listResult` is the outcome of `SandboxSdkClient.listTemplates()`
(`Except.error` models the call throwing, `Except.ok none` a missing/undefined
response).  `select` is the template-selection inference call and `getDetails`
the `getTemplateDetails` call.  The second component of the returned pair
records whether `select` was invoked. -/
def getTemplateForQuery
    (listResult : Except String (Option TemplatesResponse))
    (select : List Template → Except String TemplateSelection)
    (getDetails : String → Except String TemplateDetailsResponse) :
    Except String (String × TemplateSelection) × Bool :=
  match listResult with
  | Except.error e => (Except.error ("Template service unavailable: " ++ e), false)
  | Except.ok none =>
    (Except.error "Failed to fetch templates from template service: Unknown error", false)
  | Except.ok (some resp) =>
    if resp.success = false then
      (Except.error ("Failed to fetch templates from template service: "
        ++ resp.error.getD "Unknown error"), false)
    else if resp.templates.length = 0 then
      (Except.error "No templates available in the template catalog", false)
    else
      match select resp.templates with
      | Except.error e => (Except.error e, true)
      | Except.ok sel =>
        match sel.selectedTemplateName with
        | none =>
          (Except.error
            "No suitable template found for your request. Please try rephrasing your query.",
            true)
        | some selName =>
          match resp.templates.find? (fun t => t.name == selName) with
          | none =>
            (Except.error ("Selected template \x27" ++ selName
              ++ "\x27 not found in available templates"), true)
          | some selectedTemplate =>
            match getDetails selectedTemplate.name with
            | Except.error _ =>
              (Except.error ("Template service error: Failed to fetch template details for \x27"
                ++ selectedTemplate.name ++ "\x27"), true)
            | Except.ok d =>
              if ! d.success || d.templateDetails.isNone then
                (Except.error ("Failed to fetch template files: "
                  ++ d.error.getD "Unknown error"), true)
              else
                (Except.ok (d.templateDetails.getD "", sel), true)

/- ===================== Agent cloning (src/worker/agents/index.ts, cloneAgent) ==================== -/

/-- Embedding of the `CodeGenState` fields that `cloneAgent` overrides
explicitly; every remaining field of the full state is collected in
`otherFields` (of an arbitrary type `R`), which the spread `...originalState`
copies verbatim. -/
structure CodeGenState (R : Type) where
  sessionId : String
  sandboxInstanceId : Option String
  pendingUserInputs : List String
  currentDevState : Nat
  generationPromise : Option Unit
  shouldBeGenerating : Bool
  clientReportedErrors : List String
  otherFields : R

/-- A durable agent as visible to `cloneAgent`: whether `isInitialized()`
holds, and its full state. -/
structure AgentEntry (R : Type) where
  initialized : Bool
  state : CodeGenState R

/-- The `newState` object literal of `cloneAgent` (src/worker/agents/index.ts
lines 39-49): spread of the original state with `sessionId` set to the new
agent id, `sandboxInstanceId`/`generationPromise` cleared,
`pendingUserInputs`/`clientReportedErrors` emptied, `currentDevState` zeroed
and `shouldBeGenerating` false. -/
def cloneNewState {R : Type} (originalState : CodeGenState R) (newAgentId : String) :
    CodeGenState R :=
  { originalState with
      sessionId := newAgentId
      sandboxInstanceId := none
      pendingUserInputs := []
      currentDevState := 0
      generationPromise := none
      shouldBeGenerating := false
      clientReportedErrors := [] }

/-- Embedding of `cloneAgent` (src/worker/agents/index.ts lines 30-53).  The
set of durable agents is a store from agent id to `AgentEntry`; an absent or
uninitialized source agent makes the function throw.  `newAgentId` stands for
the value produced by `generateId()`.  On success the new agent holds the
clone state (its `setState` initializes it) and every other id, the source
included, is untouched. -/
def cloneAgent {R : Type} (store : String → Option (AgentEntry R))
    (agentId newAgentId : String) :
    Except String ((String → Option (AgentEntry R)) × String) :=
  match store agentId with
  | none => Except.error ("Agent " ++ agentId ++ " not found")
  | some entry =>
    if entry.initialized = false then
      Except.error ("Agent " ++ agentId ++ " not found")
    else
      let newState := cloneNewState entry.state newAgentId
      Except.ok
        (fun id => if id = newAgentId then some ⟨true, newState⟩ else store id, newAgentId)

/-- Concrete one-agent store used to exercise `cloneAgent`: agent "a" is
initialized with fully populated state (its remaining fields collapsed to the
number 42). -/
def c9Store : String → Option (AgentEntry Nat) := fun id =>
  if id = "a" then some ⟨true, ⟨"a", some "sb", ["x"], 5, some (), true, ["err"], 42⟩⟩
  else none

/- ===================== SSE heartbeat (src/unnamed/part_001, createSSEStream) ==================== -/

/-- Heartbeat period of `createSSEStream` (src/unnamed/part_001 line 204):
`setInterval(..., 15000)`. -/
def heartbeatIntervalMs : Nat := 15000

/-- Discrete-time semantics of a `setInterval` timer: started at `start` with
period `periodMs` it fires at every time `start + periodMs * k` for `k ≥ 1`;
if `clearInterval` ran at time `stopAt`, ticks from that time on no longer
fire. -/
def intervalFiresB (periodMs start : Nat) (stopAt : Option Nat) (t : Nat) : Bool :=
  decide (start < t) && decide ((t - start) % periodMs = 0) &&
    (match stopAt with
     | none => true
     | some c => decide (t < c))

/-- Timer-relevant state of the object returned by `createSSEStream`
(src/unnamed/part_001 lines 187-214): the time `startHeartbeat` ran, if it
did, and the time `cleanup` ran, if it did. -/
structure SSEStream where
  heartbeatStartedAt : Option Nat
  cleanedUpAt : Option Nat

/-- A fresh stream: no heartbeat timer, not cleaned up. -/
def createSSEStream : SSEStream := ⟨none, none⟩

/-- Embedding of `startHeartbeat` (src/unnamed/part_001 lines 200-204):
installs the 15000 ms interval timer at time `now`. -/
def startHeartbeat (s : SSEStream) (now : Nat) : SSEStream :=
  { s with heartbeatStartedAt := some now }

/-- Embedding of `cleanup` (src/unnamed/part_001 lines 206-211): clears the
interval timer at time `now`. -/
def cleanup (s : SSEStream) (now : Nat) : SSEStream :=
  { s with cleanedUpAt := some now }

/-- Whether the stream emits a heartbeat event at time `t`: only a timer
installed by `startHeartbeat` and not yet cleared fires, on the fixed 15000 ms
schedule, independent of any session state. -/
def emitsHeartbeatAt (s : SSEStream) (t : Nat) : Bool :=
  match s.heartbeatStartedAt with
  | none => false
  | some st => intervalFiresB heartbeatIntervalMs st s.cleanedUpAt t

/-- Number of heartbeat events a subscriber connected through time `t`
(inclusive) receives. -/
def heartbeatsUpTo (s : SSEStream) (t : Nat) : Nat :=
  ((Finset.range (t + 1)).filter fun u => emitsHeartbeatAt s u = true).card

/- ===================== Inference gateway fallback (modelled from the spec) ==================== -/

/-- One entry of the attempt history surfaced on total failure: provider name
and error message. -/
structure AttemptRecord where
  provider : String
  message : String
deriving DecidableEq

/-- Outcome of one provider/model call: success, or an error classified
recoverable (timeout, 429/5xx-equivalent) or not. -/
inductive CallResult (A : Type) where
  | ok (value : A)
  | err (recoverable : Bool) (message : String)

/-- Bounded-retry loop around one model, following spec section 4.1: up to the
given number of attempts, stopping early on success or on a non-recoverable
error.  Returns the final outcome and the number of attempts made.
First argument of the recursion is the remaining attempt budget, second the
current (1-based) attempt number; `behavior model k` is the outcome of the
k-th call to `model`. -/
def retryModelAux {A : Type} (behavior : String → Nat → CallResult A) (model : String) :
    Nat → Nat → CallResult A × Nat
  | 0, _ => (CallResult.err true "", 0)
  | remaining + 1, attempt =>
    match behavior model attempt with
    | CallResult.ok a => (CallResult.ok a, 1)
    | CallResult.err rcv msg =>
      if rcv = false then (CallResult.err false msg, 1)
      else if remaining = 0 then (CallResult.err true msg, 1)
      else
        let rest := retryModelAux behavior model remaining (attempt + 1)
        (rest.1, rest.2 + 1)

/-- Retry a model for up to `maxAttempts` attempts. -/
def retryModel {A : Type} (behavior : String → Nat → CallResult A) (model : String)
    (maxAttempts : Nat) : CallResult A × Nat :=
  retryModelAux behavior model maxAttempts 1

/-- Result of one gateway invocation together with the trace of models tried
(model identifier, number of attempts made against it). -/
structure GatewayOutcome (A : Type) where
  result : Except (List AttemptRecord) A
  modelsTried : List (String × Nat)

/-- Modelled from the spec: the Inference Gateway invocation driver
(worker/agents/inferutils/core.ts per the providers guide in
src/unnamed/part_000) is not among the provided source files.  Spec section
4.1: the primary model is wrapped in bounded retry; on failure the caller
retries against `modelConfig.fallbackModel` exactly once per configured chain
(no multi-hop fallback beyond the configured chain of length 1); if the
fallback also fails, the error is surfaced with the attempt history (provider
name, error message) for both attempts. -/
def invokeWithFallback {A : Type} (behavior : String → Nat → CallResult A)
    (cfg : ModelConfig) (maxAttempts : Nat) : GatewayOutcome A :=
  match retryModel behavior cfg.name maxAttempts with
  | (CallResult.ok a, n) => ⟨Except.ok a, [(cfg.name, n)]⟩
  | (CallResult.err _ msg, n) =>
    match cfg.fallbackModel with
    | none => ⟨Except.error [⟨providerOfModel cfg.name, msg⟩], [(cfg.name, n)]⟩
    | some fb =>
      match behavior fb 1 with
      | CallResult.ok a => ⟨Except.ok a, [(cfg.name, n), (fb, 1)]⟩
      | CallResult.err _ fmsg =>
        ⟨Except.error [⟨providerOfModel cfg.name, msg⟩, ⟨providerOfModel fb, fmsg⟩],
          [(cfg.name, n), (fb, 1)]⟩

/-- Concrete provider behaviour used to exercise the gateway: the primary
Claude model always fails with a recoverable 503, any other model fails
non-recoverably. -/
def c1Behavior : String → Nat → CallResult Nat := fun model _ =>
  if model = "anthropic/claude-sonnet-4-5-20250929" then
    CallResult.err true "503 service unavailable"
  else CallResult.err false "fallback exhausted"

/-- Concrete model configuration with a fallback chain of length 1. -/
def c1Config : ModelConfig :=
  { name := "anthropic/claude-sonnet-4-5-20250929"
    reasoning_effort := none
    max_tokens := none
    temperature := none
    fallbackModel := some "grok/grok-4-1-fast-reasoning" }

/- ===================== MIME type from extension (src/worker/api/routes/filesRoutes.ts, two bundled definitions) ==================== -/

/-- Linear lookup in an extension-to-MIME association list, mirroring a
JavaScript object-literal key access `map[ext]`. -/
def lookupExt : List (List Char × String) → List Char → Option String
  | [], _ => none
  | (k, v) :: rest, e => if e = k then some v else lookupExt rest e

/-- The `mimeMap` object of the first `getMimeTypeFromExtension`
(src/worker/api/routes/filesRoutes.ts lines 341-407); keys include the dot. -/
def mimeMapV1 : List (List Char × String) :=
  [ (".js".data, "text/javascript")
  , (".jsx".data, "text/javascript")
  , (".mjs".data, "text/javascript")
  , (".cjs".data, "text/javascript")
  , (".ts".data, "text/typescript")
  , (".tsx".data, "text/typescript")
  , (".html".data, "text/html")
  , (".htm".data, "text/html")
  , (".css".data, "text/css")
  , (".scss".data, "text/css")
  , (".sass".data, "text/css")
  , (".less".data, "text/css")
  , (".json".data, "application/json")
  , (".yaml".data, "text/yaml")
  , (".yml".data, "text/yaml")
  , (".xml".data, "application/xml")
  , (".csv".data, "text/csv")
  , (".py".data, "text/x-python")
  , (".pyw".data, "text/x-python")
  , (".pyx".data, "text/x-python")
  , (".java".data, "text/x-java-source")
  , (".kt".data, "text/x-kotlin")
  , (".kts".data, "text/x-kotlin")
  , (".scala".data, "text/x-scala")
  , (".c".data, "text/x-c")
  , (".h".data, "text/x-c")
  , (".cpp".data, "text/x-c++")
  , (".cc".data, "text/x-c++")
  , (".cxx".data, "text/x-c++")
  , (".hpp".data, "text/x-c++")
  , (".hh".data, "text/x-c++")
  , (".rs".data, "text/x-rust")
  , (".go".data, "text/x-go")
  , (".rb".data, "text/x-ruby")
  , (".erb".data, "text/x-ruby")
  , (".php".data, "text/x-php")
  , (".swift".data, "text/x-swift")
  , (".sh".data, "application/x-sh")
  , (".bash".data, "application/x-sh")
  , (".zsh".data, "application/x-sh")
  , (".fish".data, "application/x-sh")
  , (".sql".data, "application/sql")
  , (".md".data, "text/markdown")
  , (".mdx".data, "text/markdown")
  , (".txt".data, "text/plain")
  , (".text".data, "text/plain")
  , (".zip".data, "application/zip")
  , (".tar".data, "application/x-tar")
  , (".gz".data, "application/gzip")
  , (".tgz".data, "application/gzip") ]

/-- The `extensionMap` object of the second `getMimeTypeFromExtension`
(src/worker/api/routes/filesRoutes.ts lines 649-698); keys have no dot. -/
def mimeMapV2 : List (List Char × String) :=
  [ ("png".data, "image/png")
  , ("jpg".data, "image/jpeg")
  , ("jpeg".data, "image/jpeg")
  , ("webp".data, "image/webp")
  , ("txt".data, "text/plain")
  , ("md".data, "text/markdown")
  , ("js".data, "application/javascript")
  , ("mjs".data, "application/javascript")
  , ("cjs".data, "application/javascript")
  , ("ts".data, "application/typescript")
  , ("tsx".data, "application/typescript")
  , ("jsx".data, "application/javascript")
  , ("html".data, "text/html")
  , ("css".data, "text/css")
  , ("json".data, "application/json")
  , ("xml".data, "application/xml")
  , ("py".data, "text/x-python")
  , ("java".data, "text/x-java-source")
  , ("c".data, "text/x-c")
  , ("cpp".data, "text/x-c++src")
  , ("cc".data, "text/x-c++src")
  , ("cxx".data, "text/x-c++src")
  , ("h".data, "text/x-c")
  , ("hpp".data, "text/x-c++src")
  , ("go".data, "text/x-go")
  , ("rs".data, "text/x-rust")
  , ("rb".data, "text/x-ruby")
  , ("php".data, "text/x-php")
  , ("swift".data, "text/x-swift")
  , ("kt".data, "text/x-kotlin")
  , ("cs".data, "text/x-csharp")
  , ("sh".data, "text/x-sh")
  , ("bash".data, "text/x-sh")
  , ("yaml".data, "application/x-yaml")
  , ("yml".data, "application/x-yaml")
  , ("toml".data, "application/toml")
  , ("zip".data, "application/zip")
  , ("gz".data, "application/gzip")
  , ("tar".data, "application/x-tar") ]

/-- Embedding of the first `getMimeTypeFromExtension`
(src/worker/api/routes/filesRoutes.ts lines 339-409).  The source computes
`ext = filename.toLowerCase().substring(filename.lastIndexOf('.'))`: from the
last dot (inclusive) to the end, or - since `substring` clamps the `-1` of a
dotless name to `0` - the whole lowercased name; then
`mimeMap[ext] || 'application/octet-stream'`. -/
def getMimeTypeFromExtensionV1 (filename : String) : String :=
  let lower := jsToLower filename.data
  let ext :=
    match afterLastSep '.' lower with
    | some suf => '.' :: suf
    | none => lower
  (lookupExt mimeMapV1 ext).getD "application/octet-stream"

/-- Embedding of the second `getMimeTypeFromExtension`
(src/worker/api/routes/filesRoutes.ts lines 646-701).  The source computes
`ext = filename.toLowerCase().split('.').pop()` - the last segment of the
split, embedded with `jsSplitOn` - and returns
`ext ? extensionMap[ext] || null : null`. -/
def getMimeTypeFromExtensionV2 (filename : String) : Option String :=
  let lower := jsToLower filename.data
  let ext := (jsSplitOn '.' lower).getLastD []
  if ext = [] then none else lookupExt mimeMapV2 ext

/-- Extensions (without dot) on which the two maps assign the same MIME type. -/
def agreeExts : List (List Char) :=
  [ "html".data, "css".data, "json".data, "xml".data, "py".data, "java".data
  , "kt".data, "c".data, "h".data, "rs".data, "go".data, "rb".data, "php".data
  , "swift".data, "md".data, "txt".data, "zip".data, "tar".data, "gz".data ]

/-- Decidable condition characterising when the two `getMimeTypeFromExtension`
definitions agree on a filename: it must contain a dot and its lowercased
final extension must be one of `agreeExts`. -/
def mimeMapsAgreeOn (filename : String) : Bool :=
  match afterLastSep '.' (jsToLower filename.data) with
  | some suf => decide (suf ∈ agreeExts)
  | none => false

/- ===================== Supporting lemmas ==================== -/

theorem withRetryAux_calls_le {E A : Type} (behavior : Nat → Except E A) (b m : Nat)
    (s : Option (E → Bool)) : ∀ r a, (withRetryAux behavior b m s r a).calls ≤ r := by
  intro r
  induction r with
  | zero => intro a; simp [withRetryAux]
  | succ n ih =>
    intro a
    simp only [withRetryAux]
    cases hb : behavior a with
    | ok v => simp
    | error e =>
      dsimp only
      by_cases hs : rejectsRetry s e = true
      · rw [if_pos hs]; simp
      · rw [if_neg hs]
        by_cases hn : n = 0
        · rw [if_pos hn]; simp
        · rw [if_neg hn]
          simpa using Nat.succ_le_succ (ih (a + 1))

theorem withRetryAux_calls_pos {E A : Type} (behavior : Nat → Except E A) (b m : Nat)
    (s : Option (E → Bool)) (r a : Nat) (hr : 1 ≤ r) :
    1 ≤ (withRetryAux behavior b m s r a).calls := by
  cases r with
  | zero => omega
  | succ n =>
    simp only [withRetryAux]
    cases hb : behavior a with
    | ok v => simp
    | error e =>
      dsimp only
      by_cases hs : rejectsRetry s e = true
      · rw [if_pos hs]
      · rw [if_neg hs]
        by_cases hn : n = 0
        · rw [if_pos hn]
        · rw [if_neg hn]; simp

theorem withRetryAux_delays {E A : Type} (behavior : Nat → Except E A) (b m : Nat)
    (s : Option (E → Bool)) : ∀ r a, 1 ≤ a →
    (withRetryAux behavior b m s r a).delays =
      (List.range ((withRetryAux behavior b m s r a).calls - 1)).map
        fun i => min (b * 2 ^ (a - 1 + i)) m := by
  intro r
  induction r with
  | zero => intro a _; simp [withRetryAux]
  | succ n ih =>
    intro a ha
    simp only [withRetryAux]
    cases hb : behavior a with
    | ok v => simp
    | error e =>
      dsimp only
      by_cases hs : rejectsRetry s e = true
      · rw [if_pos hs]; simp
      · rw [if_neg hs]
        by_cases hn : n = 0
        · rw [if_pos hn]; simp
        · rw [if_neg hn]
          have hpos : 1 ≤ (withRetryAux behavior b m s n (a + 1)).calls :=
            withRetryAux_calls_pos behavior b m s n (a + 1) (by omega)
          simp only
          rw [Nat.add_sub_cancel]
          obtain ⟨k, hk⟩ : ∃ k, (withRetryAux behavior b m s n (a + 1)).calls = k + 1 :=
            ⟨(withRetryAux behavior b m s n (a + 1)).calls - 1, by omega⟩
          rw [hk, List.range_succ_eq_map, List.map_cons, List.map_map]
          have htail := ih (a + 1) (by omega)
          rw [hk] at htail
          simp only [Nat.add_sub_cancel] at htail
          rw [htail]
          congr 1
          apply List.map_congr_left
          intro i _
          have hexp : a - 1 + (i + 1) = a + i := by omega
          simp [Function.comp, Nat.succ_eq_add_one, hexp]

theorem jsSplitOn_ne_nil (sep : Char) : ∀ l : List Char, jsSplitOn sep l ≠ [] := by
  intro l
  induction l with
  | nil => simp [jsSplitOn]
  | cons c cs ih =>
    simp only [jsSplitOn]
    by_cases hc : c = sep
    · rw [if_pos hc]; simp
    · rw [if_neg hc]
      cases h : jsSplitOn sep cs with
      | nil => exact absurd h ih
      | cons r rs => simp

theorem jsSplitOn_headD (sep : Char) : ∀ l : List Char,
    (jsSplitOn sep l).headD [] = l.takeWhile fun c => ! (c == sep) := by
  intro l
  induction l with
  | nil => simp [jsSplitOn]
  | cons c cs ih =>
    simp only [jsSplitOn]
    by_cases hc : c = sep
    · rw [if_pos hc]
      subst hc
      simp [List.takeWhile_cons]
    · rw [if_neg hc]
      cases h : jsSplitOn sep cs with
      | nil => exact absurd h (jsSplitOn_ne_nil sep cs)
      | cons r rs =>
        rw [h] at ih
        simp only [List.headD_cons] at ih
        simp [List.takeWhile_cons, hc, ih]

theorem jsSplitOn_last (sep : Char) : ∀ l : List Char,
    ((jsSplitOn sep l).getLastD [] = (afterLastSep sep l).getD l) ∧
    (∀ x, jsSplitOn sep l = [x] → x = l ∧ afterLastSep sep l = none) ∧
    (afterLastSep sep l = none → jsSplitOn sep l = [l]) := by
  intro l
  induction l with
  | nil =>
    refine ⟨by simp [jsSplitOn, afterLastSep], ?_, by simp [jsSplitOn]⟩
    intro x hx
    simp only [jsSplitOn] at hx
    injection hx with h1 _
    exact ⟨h1.symm, by simp [afterLastSep]⟩
  | cons c cs ih =>
    obtain ⟨ih1, ih2, ih3⟩ := ih
    cases hrest : jsSplitOn sep cs with
    | nil => exact absurd hrest (jsSplitOn_ne_nil sep cs)
    | cons r rs =>
      rw [hrest] at ih1
      by_cases hc : c = sep
      · refine ⟨?_, ?_, ?_⟩
        · have lhs : (jsSplitOn sep (c :: cs)).getLastD [] = (r :: rs).getLastD [] := by
            simp only [jsSplitOn, if_pos hc, hrest, List.getLastD_cons]
          rw [lhs, ih1]
          cases hA : afterLastSep sep cs with
          | none => simp [afterLastSep, hA, if_pos hc]
          | some suf => simp [afterLastSep, hA]
        · intro x hx
          simp only [jsSplitOn, if_pos hc, hrest] at hx
          simp at hx
        · intro hA
          simp only [afterLastSep] at hA
          cases hA2 : afterLastSep sep cs <;> simp [hA2, if_pos hc] at hA
      · refine ⟨?_, ?_, ?_⟩
        · have lhs : (jsSplitOn sep (c :: cs)).getLastD [] = rs.getLastD (c :: r) := by
            simp only [jsSplitOn, if_neg hc, hrest, List.getLastD_cons]
          rw [lhs]
          cases hA : afterLastSep sep cs with
          | none =>
            have hsingle := (hrest.symm.trans (ih3 hA))
            injection hsingle with hr hrs
            subst hr
            subst hrs
            simp [afterLastSep, hA, if_neg hc]
          | some suf =>
            rw [hA] at ih1
            cases rs with
            | nil =>
              have h2 := ih2 r hrest
              rw [h2.2] at hA
              exact absurd hA (by simp)
            | cons r2 rs2 =>
              simp only [List.getLastD_cons] at ih1 ⊢
              simp only [Option.getD_some] at ih1
              rw [ih1]
              simp [afterLastSep, hA]
        · intro x hx
          simp only [jsSplitOn, if_neg hc, hrest] at hx
          injection hx with hx1 hx2
          subst hx2
          have h2 := ih2 r hrest
          refine ⟨?_, ?_⟩
          · rw [← hx1, h2.1]
          · simp [afterLastSep, h2.2, if_neg hc]
        · intro hA
          simp only [afterLastSep] at hA
          cases hA2 : afterLastSep sep cs with
          | some suf => simp [hA2] at hA
          | none =>
            have hsingle := (hrest.symm.trans (ih3 hA2))
            injection hsingle with hr hrs
            subst hr
            subst hrs
            simp [jsSplitOn, if_neg hc, hrest]

theorem takeWhile_append_sep (sep : Char) : ∀ (l t : List Char), sep ∉ l →
    (l ++ sep :: t).takeWhile (fun c => ! (c == sep)) = l := by
  intro l t h
  induction l with
  | nil => simp [List.takeWhile_cons]
  | cons c cs ih =>
    simp only [List.mem_cons, not_or] at h
    have hc : ¬ c = sep := fun hcc => h.1 hcc.symm
    simp only [List.cons_append, List.takeWhile_cons]
    simp [hc, ih (fun hm => h.2 hm)]

theorem char_toNat_ofNat (n : Nat) (h : n < 55296) : (Char.ofNat n).toNat = n := by
  rw [Char.ofNat, dif_pos (Or.inl h)]
  simp [Char.ofNatAux, Char.toNat, UInt32.toNat]

theorem toUpper_eq_dash_iff (c : Char) : Char.toUpper c = '-' ↔ c = '-' := by
  constructor
  · intro h
    simp only [Char.toUpper] at h
    split at h
    · rename_i hr
      have := char_toNat_ofNat (Char.toNat c - 32) (by omega)
      rw [h] at this
      have h2 : ('-' : Char).toNat = 45 := by rfl
      omega
    · exact h
  · intro h
    subst h
    rfl

theorem withRetryAux_rejected {E A : Type} (behavior : Nat → Except E A) (b m : Nat)
    (p : E → Bool) (e : E) : ∀ (i r a : Nat), i + 1 ≤ r →
    (∀ k, a ≤ k → k < a + i → ∃ ek, behavior k = Except.error ek ∧ p ek = true) →
    behavior (a + i) = Except.error e → p e = false →
    (withRetryAux behavior b m (some p) r a).result = Except.error (some e) ∧
    (withRetryAux behavior b m (some p) r a).calls = i + 1 := by
  intro i
  induction i with
  | zero =>
    intro r a hr _ hbe hpe
    obtain ⟨r2, rfl⟩ : ∃ r2, r = r2 + 1 := ⟨r - 1, by omega⟩
    rw [Nat.add_zero] at hbe
    simp only [withRetryAux, hbe]
    have hrej : rejectsRetry (some p) e = true := by simp [rejectsRetry, hpe]
    rw [if_pos hrej]
    exact ⟨rfl, rfl⟩
  | succ n ih =>
    intro r a hr hprev hbe hpe
    obtain ⟨r2, rfl⟩ : ∃ r2, r = r2 + 1 := ⟨r - 1, by omega⟩
    obtain ⟨e0, he0, hpe0⟩ := hprev a (Nat.le_refl a) (by omega)
    simp only [withRetryAux, he0]
    have hrej : rejectsRetry (some p) e0 = false := by simp [rejectsRetry, hpe0]
    rw [if_neg (by simp [hrej]), if_neg (show ¬ r2 = 0 by omega)]
    have hrec := ih r2 (a + 1) (by omega)
      (fun k hk1 hk2 => hprev k (by omega) (by omega))
      (by rw [show a + 1 + n = a + (n + 1) by omega]; exact hbe) hpe
    dsimp only
    exact ⟨hrec.1, by rw [hrec.2]⟩

/- ===================== Claim theorems ==================== -/

/-- C3: every operation wrapped by `withRetry` with options `{maxAttempts,
backoffMs, maxBackoffMs (default 30000), shouldRetry}` is invoked at most
`maxAttempts` times; the delay awaited before retry number `k+1` (the entry of
index `k-1` of the delay list) equals `min(backoffMs * 2^(k-1), maxBackoffMs)`;
an error for which `shouldRetry` returns false - at whichever attempt `j` it
occurs, after any prefix of retryable failures - is rethrown immediately, with
exactly `j` invocations and no further attempts; and the phase-generation call
site configures the default of 3 attempts. -/
theorem withRetry_bounded_backoff_spec (E A : Type) (behavior : Nat → Except E A)
    (opts : RetryOptions E) :
    (withRetry behavior opts).calls ≤ opts.maxAttempts ∧
    (withRetry behavior opts).delays =
      (List.range ((withRetry behavior opts).calls - 1)).map
        (fun k => min (opts.backoffMs * 2 ^ k) (opts.maxBackoffMs.getD 30000)) ∧
    (∀ (p : E → Bool) (j : Nat) (e : E), opts.shouldRetry = some p →
      1 ≤ j → j ≤ opts.maxAttempts →
      (∀ k, 1 ≤ k → k < j → ∃ ek, behavior k = Except.error ek ∧ p ek = true) →
      behavior j = Except.error e → p e = false →
      (withRetry behavior opts).result = Except.error (some e) ∧
        (withRetry behavior opts).calls = j) ∧
    (generatePhaseRetryOptions E).maxAttempts = 3 := by
  refine ⟨withRetryAux_calls_le behavior _ _ _ _ _, ?_, ?_, rfl⟩
  · have h := withRetryAux_delays behavior opts.backoffMs (opts.maxBackoffMs.getD 30000)
      opts.shouldRetry opts.maxAttempts 1 (by omega)
    simpa [withRetry, Nat.sub_self, Nat.zero_add] using h
  · intro p j e hp hj1 hjA hprev hbj hpe
    unfold withRetry
    rw [hp]
    have h := withRetryAux_rejected behavior opts.backoffMs (opts.maxBackoffMs.getD 30000)
      p e (j - 1) opts.maxAttempts 1 (by omega)
      (fun k hk1 hk2 => hprev k hk1 (by omega))
      (by rw [show 1 + (j - 1) = j by omega]; exact hbj) hpe
    rw [show j - 1 + 1 = j by omega] at h
    exact h

/-- Witness for C3: attempt 1 fails with the retryable error 5, attempt 2 with
the non-retryable error 7; the run stops at attempt 2 rethrowing 7, with no
third attempt despite `maxAttempts = 3`. -/
theorem withRetry_bounded_backoff_spec_witness :
    (withRetry (fun n => if n = 1 then (Except.error 5 : Except Nat Nat) else Except.error 7)
        ⟨3, 1000, none, some fun x => x == 5⟩).result = Except.error (some 7) ∧
    (withRetry (fun n => if n = 1 then (Except.error 5 : Except Nat Nat) else Except.error 7)
        ⟨3, 1000, none, some fun x => x == 5⟩).calls = 2 :=
  (withRetry_bounded_backoff_spec Nat Nat
      (fun n => if n = 1 then Except.error 5 else Except.error 7)
      ⟨3, 1000, none, some fun x => x == 5⟩).2.2.1 (fun x => x == 5) 2 7 rfl
    (by decide) (by decide)
    (fun k hk1 hk2 => by
      have hk : k = 1 := by omega
      subst hk
      exact ⟨5, rfl, rfl⟩)
    rfl rfl

/-- C2 (behaviour of the code at the failing input): `advancePhase` on a
session whose status is the terminal `failed` is not a no-op - it increments
`currentPhase`, bumps `updatedAt` and regresses the status to `generating`,
because the code recomputes the status with no guard on a terminal current
status. -/
theorem advancePhase_failed_regresses :
    advancePhase ⟨"s", GenStatus.failed, 0, 2, some "boom", 0, 0⟩ 5 =
      ⟨"s", GenStatus.generating, 1, 2, some "boom", 0, 5⟩ ∧
    (advancePhase ⟨"s", GenStatus.failed, 0, 2, some "boom", 0, 0⟩ 5).status ≠
      GenStatus.failed ∧
    advancePhase ⟨"s", GenStatus.failed, 0, 2, some "boom", 0, 0⟩ 5 ≠
      ⟨"s", GenStatus.failed, 0, 2, some "boom", 0, 0⟩ := by
  refine ⟨rfl, ?_, ?_⟩ <;> decide

/-- C8: the agent configuration admits the `DISABLED` sentinel, the default
configuration sets both post-phase corrector profiles (`realtimeCodeFixer` and
`fastCodeFixer`) to `DISABLED`, and a corrector running under a `DISABLED`
profile returns its input files unchanged. -/
theorem corrector_disabled_spec :
    AGENT_CONFIG.realtimeCodeFixer.name = AIModels.DISABLED ∧
    AGENT_CONFIG.fastCodeFixer.name = AIModels.DISABLED ∧
    ∀ (cfg : ModelConfig) (fix : List (String × String) → List (String × String))
      (files : List (String × String)), cfg.name = AIModels.DISABLED →
        runCorrector cfg fix files = files := by
  refine ⟨rfl, rfl, ?_⟩
  intro cfg fix files hcfg
  simp [runCorrector, hcfg]

/-- Witness for C8: the disabled realtime fixer profile passes a concrete file
list through unchanged. -/
theorem corrector_disabled_spec_witness :
    runCorrector AGENT_CONFIG.realtimeCodeFixer (fun _ => []) [("a.ts", "x")] =
      [("a.ts", "x")] :=
  corrector_disabled_spec.2.2 AGENT_CONFIG.realtimeCodeFixer (fun _ => []) [("a.ts", "x")] rfl

/-- C6: for every model identifier of the form `<provider>/<rest>`, the
resolved provider name is exactly the part of the identifier before the first
slash, and the credential environment key is the provider name uppercased with
dashes replaced by underscores, suffixed `_API_KEY`. -/
theorem provider_resolution_spec (p rest : String) (hp : ('/' : Char) ∉ p.data) :
    providerOfModel (p ++ "/" ++ rest) = p ∧
    envKeyOfProvider p =
      String.mk (p.data.map fun c => if c = '-' then '_' else Char.toUpper c)
        ++ "_API_KEY" := by
  constructor
  · unfold providerOfModel
    rw [jsSplitOn_headD]
    have hdata : (p ++ "/" ++ rest).data = p.data ++ '/' :: rest.data := by
      simp [String.data_append]
    rw [hdata, takeWhile_append_sep '/' p.data rest.data hp]
  · unfold envKeyOfProvider
    rw [List.map_map]
    congr 1
    apply congrArg
    apply List.map_congr_left
    intro c _
    by_cases hcd : c = '-'
    · subst hcd
      rfl
    · have hne : Char.toUpper c ≠ '-' := fun hu => hcd ((toUpper_eq_dash_iff c).mp hu)
      simp [Function.comp, hcd, hne]

/-- Witness for C6: the Gemini model identifier resolves to the
`google-ai-studio` provider, whose environment key is
`GOOGLE_AI_STUDIO_API_KEY`. -/
theorem provider_resolution_spec_witness :
    providerOfModel ("google-ai-studio" ++ "/" ++ "gemini-3-pro") = "google-ai-studio" ∧
    envKeyOfProvider "google-ai-studio" =
      String.mk ("google-ai-studio".data.map fun c => if c = '-' then '_' else Char.toUpper c)
        ++ "_API_KEY" :=
  provider_resolution_spec "google-ai-studio" "gemini-3-pro" (by decide)

/-- C4 counterexample: the claim that an invocation against a provider with an
absent or invalid credential fails fast without a substitute credential is
false.  With the Anthropic key set to the placeholder "none" (which fails
validation) and a gateway token configured, `getApiKey` returns the substitute
`CLOUDFLARE_AI_GATEWAY_TOKEN` value instead of failing. -/
theorem getApiKey_substitutes_gateway_token :
    isValidApiKey (c4Env (envKeyOfProvider "anthropic")) = false ∧
    getApiKey "anthropic" c4Env = some "gateway-token-123456" ∧
    getApiKey "anthropic" c4Env ≠ c4Env (envKeyOfProvider "anthropic") ∧
    getApiKey "anthropic" c4Env ≠ none := by
  refine ⟨?_, ?_, ?_, ?_⟩ <;> decide

/-- C4 amended: when the provider credential resolved from the environment is
absent or fails validation, `getApiKey` does not raise an error - it returns
the process-wide `CLOUDFLARE_AI_GATEWAY_TOKEN` as substitute credential. -/
theorem getApiKey_invalid_falls_back (provider : String) (env : String → Option String)
    (h : isValidApiKey (env (envKeyOfProvider provider)) = false) :
    getApiKey provider env = env "CLOUDFLARE_AI_GATEWAY_TOKEN" := by
  unfold getApiKey
  simp [h]

/-- Witness for the amended C4: the concrete environment with the placeholder
Anthropic key resolves to the gateway token. -/
theorem getApiKey_invalid_falls_back_witness :
    getApiKey "anthropic" c4Env = c4Env "CLOUDFLARE_AI_GATEWAY_TOKEN" :=
  getApiKey_invalid_falls_back "anthropic" c4Env (by decide)

/-- C5: `getTemplateForQuery` fails with an error - and performs no
template-selection inference call, hence never returns a template - whenever
the template catalog response is missing, has success=false, or contains zero
templates. -/
theorem getTemplateForQuery_precondition_failure
    (listResult : Except String (Option TemplatesResponse))
    (select : List Template → Except String TemplateSelection)
    (getDetails : String → Except String TemplateDetailsResponse)
    (h : listResult = Except.ok none ∨
      ∃ r, listResult = Except.ok (some r) ∧ (r.success = false ∨ r.templates = [])) :
    isErr (getTemplateForQuery listResult select getDetails).1 = true ∧
    (getTemplateForQuery listResult select getDetails).2 = false := by
  rcases h with h | ⟨r, hr, hcase⟩
  · subst h
    simp [getTemplateForQuery, isErr]
  · subst hr
    by_cases hs : r.success = false
    · simp [getTemplateForQuery, hs, isErr]
    · rcases hcase with hcase | hcase
      · exact absurd hcase hs
      · simp [getTemplateForQuery, hs, hcase, isErr]

/-- Witness for C5: a present but unsuccessful catalog response makes the
function fail without invoking the selector. -/
theorem getTemplateForQuery_precondition_failure_witness :
    isErr (getTemplateForQuery (Except.ok (some ⟨false, [], some "boom"⟩))
        (fun _ => Except.error "unused") (fun _ => Except.error "unused")).1 = true ∧
    (getTemplateForQuery (Except.ok (some ⟨false, [], some "boom"⟩))
        (fun _ => Except.error "unused") (fun _ => Except.error "unused")).2 = false :=
  getTemplateForQuery_precondition_failure (Except.ok (some ⟨false, [], some "boom"⟩))
    (fun _ => Except.error "unused") (fun _ => Except.error "unused")
    (Or.inr ⟨⟨false, [], some "boom"⟩, rfl, Or.inl rfl⟩)

/-- C9: for an initialized source agent, `cloneAgent` succeeds with a freshly
generated id; the new session state equals the source state on every field
except the seven overridden ones (`sessionId` set to the new distinct id,
`sandboxInstanceId` and `generationPromise` cleared, `pendingUserInputs` and
`clientReportedErrors` emptied, `currentDevState` zeroed, `shouldBeGenerating`
false), the source entry in the store is left unchanged, and `cloneAgent`
throws when the source agent is missing or not initialized. -/
theorem cloneAgent_spec (R : Type) (store : String → Option (AgentEntry R))
    (agentId newAgentId : String) (entry : AgentEntry R)
    (hsrc : store agentId = some entry) (hinit : entry.initialized = true)
    (hfresh : newAgentId ≠ agentId) :
    (∃ store2, cloneAgent store agentId newAgentId = Except.ok (store2, newAgentId) ∧
      store2 agentId = store agentId ∧
      ∃ e2, store2 newAgentId = some e2 ∧
        e2.state.sessionId = newAgentId ∧
        e2.state.sessionId ≠ agentId ∧
        e2.state.sandboxInstanceId = none ∧
        e2.state.generationPromise = none ∧
        e2.state.pendingUserInputs = [] ∧
        e2.state.clientReportedErrors = [] ∧
        e2.state.currentDevState = 0 ∧
        e2.state.shouldBeGenerating = false ∧
        e2.state.otherFields = entry.state.otherFields) ∧
    (∀ (st : String → Option (AgentEntry R)) (aid nid : String),
      (st aid = none ∨ ∃ en, st aid = some en ∧ en.initialized = false) →
      ∃ msg, cloneAgent st aid nid = Except.error msg) := by
  constructor
  · refine ⟨fun id => if id = newAgentId
        then some ⟨true, cloneNewState entry.state newAgentId⟩ else store id, ?_, ?_, ?_⟩
    · unfold cloneAgent
      rw [hsrc]
      simp [hinit]
    · dsimp only
      rw [if_neg fun hh => hfresh hh.symm]
    · refine ⟨⟨true, cloneNewState entry.state newAgentId⟩, by simp, ?_⟩
      refine ⟨rfl, hfresh, rfl, rfl, rfl, rfl, rfl, rfl, rfl⟩
  · intro st aid nid h
    rcases h with h | ⟨en, hen, hini⟩
    · refine ⟨"Agent " ++ aid ++ " not found", ?_⟩
      unfold cloneAgent
      rw [h]
    · refine ⟨"Agent " ++ aid ++ " not found", ?_⟩
      unfold cloneAgent
      rw [hen]
      simp [hini]

/-- Witness for C9: cloning the concrete initialized agent "a" into the fresh
id "b". -/
theorem cloneAgent_spec_witness :
    (∃ store2, cloneAgent c9Store "a" "b" = Except.ok (store2, "b") ∧
      store2 "a" = c9Store "a" ∧
      ∃ e2, store2 "b" = some e2 ∧
        e2.state.sessionId = "b" ∧
        e2.state.sessionId ≠ "a" ∧
        e2.state.sandboxInstanceId = none ∧
        e2.state.generationPromise = none ∧
        e2.state.pendingUserInputs = [] ∧
        e2.state.clientReportedErrors = [] ∧
        e2.state.currentDevState = 0 ∧
        e2.state.shouldBeGenerating = false ∧
        e2.state.otherFields =
          (⟨true, ⟨"a", some "sb", ["x"], 5, some (), true, ["err"], 42⟩⟩ :
            AgentEntry Nat).state.otherFields) ∧
    (∀ (st : String → Option (AgentEntry Nat)) (aid nid : String),
      (st aid = none ∨ ∃ en, st aid = some en ∧ en.initialized = false) →
      ∃ msg, cloneAgent st aid nid = Except.error msg) :=
  cloneAgent_spec Nat c9Store "a" "b"
    ⟨true, ⟨"a", some "sb", ["x"], 5, some (), true, ["err"], 42⟩⟩ rfl rfl (by decide)

/-- C7: the heartbeat timer of an open stream fires on the fixed 15-second
schedule independent of any state change - a subscriber connected past three
intervals with no state change receives at least 3 heartbeats, and heartbeats
occur exactly at times `start + 15000 * k` - while after `cleanup` no further
heartbeat is emitted. -/
theorem heartbeat_spec (start t c u : Nat)
    (hconn : start + 3 * heartbeatIntervalMs < t)
    (hcu : c ≤ u) :
    3 ≤ heartbeatsUpTo (startHeartbeat createSSEStream start) t ∧
    emitsHeartbeatAt (cleanup (startHeartbeat createSSEStream start) c) u = false ∧
    (∀ v : Nat, emitsHeartbeatAt (startHeartbeat createSSEStream start) v = true ↔
      ∃ k : Nat, 1 ≤ k ∧ v = start + heartbeatIntervalMs * k) := by
  have hemits : ∀ k : Nat, 1 ≤ k →
      emitsHeartbeatAt (startHeartbeat createSSEStream start)
        (start + heartbeatIntervalMs * k) = true := by
    intro k hk
    simp only [emitsHeartbeatAt, startHeartbeat, createSSEStream, intervalFiresB,
      heartbeatIntervalMs, Bool.and_true, Bool.and_eq_true, decide_eq_true_eq]
    omega
  refine ⟨?_, ?_, ?_⟩
  · have hsub : ({start + heartbeatIntervalMs * 1, start + heartbeatIntervalMs * 2,
        start + heartbeatIntervalMs * 3} : Finset ℕ) ⊆
        (Finset.range (t + 1)).filter
          (fun v => emitsHeartbeatAt (startHeartbeat createSSEStream start) v = true) := by
      intro x hx
      simp only [Finset.mem_insert, Finset.mem_singleton] at hx
      apply Finset.mem_filter.mpr
      simp only [heartbeatIntervalMs] at hconn hx
      rcases hx with rfl | rfl | rfl
      · exact ⟨Finset.mem_range.mpr (by omega), hemits 1 (by omega)⟩
      · exact ⟨Finset.mem_range.mpr (by omega), hemits 2 (by omega)⟩
      · exact ⟨Finset.mem_range.mpr (by omega), hemits 3 (by omega)⟩
    have hcard : ({start + heartbeatIntervalMs * 1, start + heartbeatIntervalMs * 2,
        start + heartbeatIntervalMs * 3} : Finset ℕ).card = 3 := by
      rw [Finset.card_insert_of_not_mem, Finset.card_insert_of_not_mem,
        Finset.card_singleton]
      · simp only [Finset.mem_singleton, heartbeatIntervalMs]
        omega
      · simp only [Finset.mem_insert, Finset.mem_singleton, heartbeatIntervalMs]
        push_neg
        omega
    calc (3 : Nat) = _ := hcard.symm
    _ ≤ _ := Finset.card_le_card hsub
  · simp only [emitsHeartbeatAt, cleanup, startHeartbeat, createSSEStream, intervalFiresB]
    have hdec : decide (u < c) = false := decide_eq_false (by omega)
    simp [hdec]
  · intro v
    constructor
    · intro hv
      simp only [emitsHeartbeatAt, startHeartbeat, createSSEStream, intervalFiresB,
        heartbeatIntervalMs, Bool.and_true, Bool.and_eq_true, decide_eq_true_eq] at hv
      refine ⟨(v - start) / 15000, ?_, ?_⟩
      · omega
      · simp only [heartbeatIntervalMs]
        omega
    · rintro ⟨k, hk, rfl⟩
      exact hemits k hk

/-- Witness for C7: a subscriber from time 0 through time 45001 with the timer
never cleaned up, and a cleanup at time 10 checked at time 10. -/
theorem heartbeat_spec_witness :
    3 ≤ heartbeatsUpTo (startHeartbeat createSSEStream 0) 45001 ∧
    emitsHeartbeatAt (cleanup (startHeartbeat createSSEStream 0) 10) 10 = false ∧
    (∀ v : Nat, emitsHeartbeatAt (startHeartbeat createSSEStream 0) v = true ↔
      ∃ k : Nat, 1 ≤ k ∧ v = 0 + heartbeatIntervalMs * k) :=
  heartbeat_spec 0 45001 10 10 (by decide) (by decide)

theorem retryModelAux_allfail (A : Type) (behavior : String → Nat → CallResult A)
    (model : String) : ∀ (r a : Nat), 1 ≤ r →
    (∀ k, a ≤ k → k < a + r → ∃ msg, behavior model k = CallResult.err true msg) →
    ∃ msg, behavior model (a + r - 1) = CallResult.err true msg ∧
      retryModelAux behavior model r a = (CallResult.err true msg, r) := by
  intro r
  induction r with
  | zero => intro a h; omega
  | succ n ih =>
    intro a _ hfail
    obtain ⟨m0, hm0⟩ := hfail a (Nat.le_refl a) (by omega)
    by_cases hn : n = 0
    · subst hn
      refine ⟨m0, by simpa using hm0, ?_⟩
      simp [retryModelAux, hm0]
    · have h1n : 1 ≤ n := by omega
      obtain ⟨msg, hmsg, hrec⟩ := ih (a + 1) h1n (fun k hk1 hk2 => hfail k (by omega) (by omega))
      refine ⟨msg, ?_, ?_⟩
      · have hidx : a + 1 + n - 1 = a + (n + 1) - 1 := by omega
        rw [← hidx]
        exact hmsg
      · simp [retryModelAux, hm0, hn, hrec]

/-- C1: when the primary model of a `ModelConfig` fails with a recoverable
error on every retry attempt, the Inference Gateway attempts the configured
`fallbackModel` exactly once - the trace of models tried is
`[(primary, maxAttempts), (fallback, 1)]`, with no multi-hop fallback - before
surfacing failure, and when the fallback also fails the surfaced error carries
the attempt history (provider name, error message) of both attempts. -/
theorem gateway_fallback_spec (A : Type) (behavior : String → Nat → CallResult A)
    (cfg : ModelConfig) (maxAttempts : Nat) (fb : String)
    (hA : 1 ≤ maxAttempts) (hfb : cfg.fallbackModel = some fb)
    (hfail : ∀ k, 1 ≤ k → k ≤ maxAttempts →
      ∃ msg, behavior cfg.name k = CallResult.err true msg) :
    (invokeWithFallback behavior cfg maxAttempts).modelsTried =
      [(cfg.name, maxAttempts), (fb, 1)] ∧
    (∀ (rcv : Bool) (fmsg : String), behavior fb 1 = CallResult.err rcv fmsg →
      ∃ pmsg, behavior cfg.name maxAttempts = CallResult.err true pmsg ∧
        (invokeWithFallback behavior cfg maxAttempts).result =
          Except.error [⟨providerOfModel cfg.name, pmsg⟩, ⟨providerOfModel fb, fmsg⟩]) := by
  obtain ⟨pmsg, hpmsg, hr⟩ := retryModelAux_allfail A behavior cfg.name maxAttempts 1 hA
    (fun k hk1 hk2 => hfail k hk1 (by omega))
  have hretry : retryModel behavior cfg.name maxAttempts =
      (CallResult.err true pmsg, maxAttempts) := hr
  have hidx : 1 + maxAttempts - 1 = maxAttempts := by omega
  rw [hidx] at hpmsg
  constructor
  · unfold invokeWithFallback
    simp only [hretry, hfb]
    cases hfbres : behavior fb 1 <;> simp [hfbres]
  · intro rcv fmsg hfbres
    refine ⟨pmsg, hpmsg, ?_⟩
    unfold invokeWithFallback
    simp only [hretry, hfb, hfbres]

/-- Witness for C1: a primary that always 503s over 3 attempts falls back to
the Grok model exactly once and surfaces both providers in the history. -/
theorem gateway_fallback_spec_witness :
    (invokeWithFallback c1Behavior c1Config 3).modelsTried =
      [("anthropic/claude-sonnet-4-5-20250929", 3), ("grok/grok-4-1-fast-reasoning", 1)] ∧
    (∀ (rcv : Bool) (fmsg : String),
      c1Behavior "grok/grok-4-1-fast-reasoning" 1 = CallResult.err rcv fmsg →
      ∃ pmsg, c1Behavior "anthropic/claude-sonnet-4-5-20250929" 3 = CallResult.err true pmsg ∧
        (invokeWithFallback c1Behavior c1Config 3).result =
          Except.error [⟨providerOfModel "anthropic/claude-sonnet-4-5-20250929", pmsg⟩,
            ⟨providerOfModel "grok/grok-4-1-fast-reasoning", fmsg⟩]) :=
  gateway_fallback_spec Nat c1Behavior c1Config 3 "grok/grok-4-1-fast-reasoning"
    (by decide) rfl (fun k _ _ => ⟨"503 service unavailable", rfl⟩)

theorem lookupExt_eq_none_iff (m : List (List Char × String)) (e : List Char) :
    lookupExt m e = none ↔ e ∉ m.map Prod.fst := by
  induction m with
  | nil => simp [lookupExt]
  | cons kv rest ih =>
    obtain ⟨k, v⟩ := kv
    by_cases he : e = k
    · subst he
      simp [lookupExt]
    · simp [lookupExt, he, ih]

theorem lookupExt_mem_values (m : List (List Char × String)) (e : List Char) (v : String)
    (h : lookupExt m e = some v) : v ∈ m.map Prod.snd := by
  induction m with
  | nil => simp [lookupExt] at h
  | cons kv rest ih =>
    obtain ⟨k, w⟩ := kv
    by_cases he : e = k
    · subst he
      simp [lookupExt] at h
      simp [h]
    · simp only [lookupExt, if_neg he] at h
      simp [ih h]

theorem lookupExt_no_dot (m : List (List Char × String)) (e : List Char)
    (hkeys : ∀ kv ∈ m, ('.' : Char) ∈ kv.1) (he : ('.' : Char) ∉ e) :
    lookupExt m e = none := by
  induction m with
  | nil => rfl
  | cons kv rest ih =>
    obtain ⟨k, v⟩ := kv
    have hne : e ≠ k := by
      intro hek
      rw [hek] at he
      exact he (hkeys (k, v) (by simp))
    simp only [lookupExt, if_neg hne]
    exact ih fun kv hkv => hkeys kv (by simp [hkv])

theorem afterLastSep_none_not_mem (sep : Char) : ∀ l, afterLastSep sep l = none → sep ∉ l := by
  intro l
  induction l with
  | nil => simp
  | cons c cs ih =>
    intro h
    simp only [afterLastSep] at h
    cases h2 : afterLastSep sep cs with
    | some suf =>
      rw [h2] at h
      cases h
    | none =>
      rw [h2] at h
      by_cases hc : c = sep
      · rw [if_pos hc] at h
        cases h
      · simp only [List.mem_cons, not_or]
        exact ⟨fun hs => hc hs.symm, ih h2⟩

theorem mimeMapV1_keys_dot : ∀ kv ∈ mimeMapV1, ('.' : Char) ∈ kv.1 := by decide

theorem mimeMapV2_values_ne_octet :
    ∀ v ∈ mimeMapV2.map Prod.snd, v ≠ "application/octet-stream" := by decide

theorem agreeExts_sub_keys : ∀ k ∈ agreeExts, k ∈ mimeMapV2.map Prod.fst := by decide

theorem mimeMapV2_keys_agree : ∀ k ∈ mimeMapV2.map Prod.fst,
    ((some ((lookupExt mimeMapV1 ('.' :: k)).getD "application/octet-stream") =
      if k = [] then none else lookupExt mimeMapV2 k) ↔ k ∈ agreeExts) := by decide

/-- C10 counterexample: the two bundled `getMimeTypeFromExtension` definitions
do not return the same result for every filename - they disagree on "a.js"
(`text/javascript` versus `application/javascript`), and on a filename with no
recognized extension the first returns `application/octet-stream` while the
second returns null. -/
theorem getMime_two_versions_disagree :
    getMimeTypeFromExtensionV1 "a.js" = "text/javascript" ∧
    getMimeTypeFromExtensionV2 "a.js" = some "application/javascript" ∧
    some (getMimeTypeFromExtensionV1 "a.js") ≠ getMimeTypeFromExtensionV2 "a.js" ∧
    getMimeTypeFromExtensionV1 "README" = "application/octet-stream" ∧
    getMimeTypeFromExtensionV2 "README" = none := by
  refine ⟨?_, ?_, ?_, ?_, ?_⟩ <;> decide

/-- C10 amended: the two bundled `getMimeTypeFromExtension` definitions agree
on a filename (the second returning `some` of what the first returns) exactly
when the filename contains a dot and its lowercased final extension is one of
the 19 extensions both maps send to the same MIME type (`agreeExts`); on every
other filename they differ - e.g. on extensions mapped differently (`.js`),
on extensions present in only one map, and on unrecognized extensions
(`application/octet-stream` versus null). -/
theorem getMime_agreement_characterization (f : String) :
    (some (getMimeTypeFromExtensionV1 f) = getMimeTypeFromExtensionV2 f) ↔
      mimeMapsAgreeOn f = true := by
  have hlast := (jsSplitOn_last '.' (jsToLower f.data)).1
  cases hA : afterLastSep '.' (jsToLower f.data) with
  | none =>
    rw [hA] at hlast
    simp only [Option.getD_none] at hlast
    simp only [getMimeTypeFromExtensionV1, getMimeTypeFromExtensionV2, mimeMapsAgreeOn,
      hA, hlast]
    have hnodot : ('.' : Char) ∉ jsToLower f.data := afterLastSep_none_not_mem '.' _ hA
    have h1 : lookupExt mimeMapV1 (jsToLower f.data) = none :=
      lookupExt_no_dot _ _ mimeMapV1_keys_dot hnodot
    rw [h1]
    simp only [Option.getD_none]
    constructor
    · intro heq
      by_cases hnil : jsToLower f.data = []
      · rw [if_pos hnil] at heq
        exact Option.noConfusion heq
      · rw [if_neg hnil] at heq
        cases h2 : lookupExt mimeMapV2 (jsToLower f.data) with
        | none =>
          rw [h2] at heq
          exact Option.noConfusion heq
        | some v =>
          rw [h2] at heq
          have hv : "application/octet-stream" = v := by
            injection heq
          exact absurd hv.symm
            (mimeMapV2_values_ne_octet v (lookupExt_mem_values _ _ _ h2))
    · intro hfalse
      exact absurd hfalse (by simp)
  | some suf =>
    rw [hA] at hlast
    simp only [Option.getD_some] at hlast
    simp only [getMimeTypeFromExtensionV1, getMimeTypeFromExtensionV2, mimeMapsAgreeOn,
      hA, hlast]
    by_cases hk : suf ∈ mimeMapV2.map Prod.fst
    · rw [mimeMapV2_keys_agree suf hk]
      simp
    · have h2 : lookupExt mimeMapV2 suf = none := (lookupExt_eq_none_iff _ _).mpr hk
      have hna : suf ∉ agreeExts := fun hmem => hk (agreeExts_sub_keys suf hmem)
      constructor
      · intro heq
        by_cases hnil : suf = []
        · rw [if_pos hnil] at heq
          exact Option.noConfusion heq
        · rw [if_neg hnil, h2] at heq
          exact Option.noConfusion heq
      · intro hdec
        exact absurd (of_decide_eq_true hdec) hna
